import Mathlib

/-!
# Shallow embedding of the order / point controllers of `the-outpost-be`

This file embeds, as pure Lean functions over an explicit `Store` state, the
parts of the Express/Prisma backend that the verified claims are about:

* `createOrder` (order controller): validation phase (product resolution and
  stock availability check) followed by a transactional phase (order header
  creation, per-line stock decrement and order-item creation, order total
  update, loyalty-point credit);
* `transferPoint` (user controller): guarded two-row point transfer;
* `getOrders` (order controller): role-dependent `where` construction,
  sorting and pagination.

The relational store is a record of lists of rows; Prisma operations become
functions from `Store` to `Except AppError (Store × result)`.  A Prisma
`update` on a missing row fails (Prisma error P2025), which is the one way a
step inside the transactional phase can fail; `prisma.$transaction` commits
the body's writes on success and rolls all of them back on failure, so a
failed run's visible store is the store at transaction entry, unchanged.

Integer database columns are embedded as `Nat` where the schema constrains
them to be non-negative at creation (prices, quantities, totals) and as `Int`
where the code can drive them negative or subtracts from them (product stock,
user point balance).
-/

/-- An application-level error as thrown by the controllers:
`new AppError(statusCode, message)` from the error middleware. -/
structure AppError where
  status : Nat
  msg : String
deriving Repr, DecidableEq

/-- A `Product` row: id, name, unit price, stock, soft-delete marker
(`deletedAt`, null while the product is live). -/
structure Product where
  id : Nat
  name : String
  price : Nat
  stock : Int
  deletedAt : Option Nat
deriving Repr, DecidableEq

/-- A `User` row (the fields the embedded operations touch). -/
structure User where
  id : Nat
  email : String
  point : Int
deriving Repr, DecidableEq

/-- An `Order` row: header owned by a user, aggregate total price,
creation timestamp. -/
structure Order where
  id : Nat
  userId : Nat
  totalPrice : Nat
  createdAt : Nat
deriving Repr, DecidableEq

/-- An `OrderItem` row: one line of an order, with the unit-price snapshot
and the line total `unitPrice * quantity`. -/
structure OrderItem where
  id : Nat
  orderId : Nat
  productId : Nat
  quantity : Nat
  unitPrice : Nat
  totalPrice : Nat
deriving Repr, DecidableEq

/-- The relational store: one list of rows per table, plus the id sequences
and a clock for `createdAt` values. -/
structure Store where
  products : List Product
  users : List User
  orders : List Order
  orderItems : List OrderItem
  nextOrderId : Nat
  nextItemId : Nat
  now : Nat
deriving Repr, DecidableEq

/-- One requested line of an order body, as produced by `orderSchema`:
`{ productId, quantity }` (both positive integers after zod validation). -/
structure LineItem where
  productId : Nat
  quantity : Nat
deriving Repr, DecidableEq

/-- `throw new AppError(400, "One or more products not found")`. -/
def notFoundError : AppError := ⟨400, "One or more products not found"⟩

/-- ``throw new AppError(400, `Not enough stock for product ${product.name}`)``. -/
def stockError (name : String) : AppError :=
  ⟨400, "Not enough stock for product " ++ name⟩

/-- A Prisma `update` whose `where` matches no row rejects (error P2025);
the error middleware surfaces it as a generic internal error. -/
def recordNotFoundError : AppError := ⟨500, "Record to update not found"⟩

/-- `prisma.product.findMany({ where: { id: { in: productIds }, deletedAt: null } })`. -/
def findProducts (s : Store) (productIds : List Nat) : List Product :=
  s.products.filter (fun p => decide (p.id ∈ productIds ∧ p.deletedAt = none))

/-- The `items.forEach` stock availability check: the first line, in input
order, whose resolved product's stock is below the requested quantity
(a line whose product is not in `products` is skipped, as in the source). -/
def firstStockViolation (products : List Product) (items : List LineItem) :
    Option (LineItem × Product) :=
  items.findSome? (fun it =>
    match products.find? (fun p => p.id == it.productId) with
    | none => none
    | some p => if p.stock < (it.quantity : Int) then some (it, p) else none)

/-- The pre-transaction phase of `createOrder`: resolve the requested
product ids against non-deleted products, reject with `notFoundError` when
the resolved row count differs from the request's line count, then reject
with `stockError` at the first line whose quantity exceeds the resolved
stock.  On success it returns the resolved product rows (the price/stock
snapshot the transaction will trust). -/
def createOrderValidate (s : Store) (items : List LineItem) :
    Except AppError (List Product) :=
  let productIds := items.map (·.productId)
  let products := findProducts s productIds
  if products.length ≠ productIds.length then
    .error notFoundError
  else
    match firstStockViolation products items with
    | some (_, p) => .error (stockError p.name)
    | none => .ok products

/-- `tx.product.update({ where: { id }, data: { stock: { decrement: q } } })`:
fails when no row has the id, otherwise decrements the row's stock
unconditionally (no conditional `where` on the remaining stock). -/
def decrementStock (s : Store) (pid : Nat) (q : Nat) : Except AppError Store :=
  if s.products.any (fun p => p.id == pid) then
    .ok { s with
      products := s.products.map (fun p =>
        if p.id == pid then { p with stock := p.stock - (q : Int) } else p) }
  else
    .error recordNotFoundError

/-- `tx.user.update({ where: { id }, data: { point: { increment: d } } })`:
fails when no row has the id, otherwise adds `d` to the row's point balance
and returns the updated row. -/
def updateUserPoint (s : Store) (uid : Nat) (delta : Int) :
    Except AppError (Store × User) :=
  match s.users.find? (fun u => u.id == uid) with
  | none => .error recordNotFoundError
  | some u =>
    .ok ({ s with
            users := s.users.map (fun x =>
              if x.id == uid then { x with point := x.point + delta } else x) },
         { u with point := u.point + delta })

/-- `tx.order.update({ where: { id }, data: { totalPrice: { increment: inc } } })`:
fails when no row has the id, otherwise adds `inc` to the row's total price
and returns the updated row. -/
def incrementOrderTotal (s : Store) (oid : Nat) (inc : Nat) :
    Except AppError (Store × Order) :=
  match s.orders.find? (fun o => o.id == oid) with
  | none => .error recordNotFoundError
  | some o =>
    .ok ({ s with
            orders := s.orders.map (fun x =>
              if x.id == oid then { x with totalPrice := x.totalPrice + inc } else x) },
         { o with totalPrice := o.totalPrice + inc })

/-- One iteration of the `items.map` inside the transaction: look the line's
product up in the validation-time snapshot (`products.find(...)!`; a missing
entry aborts the transaction), decrement the live stock by the line quantity,
and create the `OrderItem` row with the snapshot unit price and line total
`price * quantity`. -/
def createOrderLine (products : List Product) (newOrderId : Nat) (st : Store)
    (it : LineItem) : Except AppError (Store × OrderItem) :=
  match products.find? (fun p => p.id == it.productId) with
  | none => .error recordNotFoundError
  | some product =>
    match decrementStock st product.id it.quantity with
    | .error e => .error e
    | .ok st1 =>
      let item : OrderItem :=
        { id := st1.nextItemId
          orderId := newOrderId
          productId := product.id
          quantity := it.quantity
          unitPrice := product.price
          totalPrice := product.price * it.quantity }
      .ok ({ st1 with
              orderItems := st1.orderItems ++ [item]
              nextItemId := st1.nextItemId + 1 },
           item)

/-- The whole per-line loop of the transaction, in input order (a failing
line rejects the whole loop, as a rejected promise rejects `Promise.all`). -/
def createOrderLines (products : List Product) (newOrderId : Nat) :
    Store → List LineItem → Except AppError (Store × List OrderItem)
  | st, [] => .ok (st, [])
  | st, it :: rest =>
    match createOrderLine products newOrderId st it with
    | .error e => .error e
    | .ok (st1, item) =>
      match createOrderLines products newOrderId st1 rest with
      | .error e => .error e
      | .ok (st2, itemsRest) => .ok (st2, item :: itemsRest)

/-- The value `createOrder` responds with on success:
`{ ...newOrderWithTotalPrice, points, items: orderItems }`. -/
structure OrderResult where
  order : Order
  points : Nat
  items : List OrderItem
deriving Repr, DecidableEq

/-- The `prisma.$transaction` body of `createOrder`, run against the store
`st` as found at transaction entry, trusting the validation-time product
snapshot `products`: create the order header (total price starts at 0),
process every line (stock decrement + order-item creation), sum the line
totals, add the sum to the order header, credit `floor(total / 1000)` points
to the purchasing user, and return the updated header with points and items. -/
def createOrderTx (products : List Product) (items : List LineItem)
    (userId : Nat) (st : Store) : Except AppError (Store × OrderResult) :=
  let newOrder : Order :=
    { id := st.nextOrderId, userId := userId, totalPrice := 0, createdAt := st.now }
  let st1 : Store :=
    { st with orders := st.orders ++ [newOrder], nextOrderId := st.nextOrderId + 1 }
  match createOrderLines products newOrder.id st1 items with
  | .error e => .error e
  | .ok (st2, orderItems) =>
    let totalOrderPrice := orderItems.foldl (fun acc item => acc + item.totalPrice) 0
    match incrementOrderTotal st2 newOrder.id totalOrderPrice with
    | .error e => .error e
    | .ok (st3, newOrderWithTotalPrice) =>
      let points := totalOrderPrice / 1000
      match updateUserPoint st3 userId (points : Int) with
      | .error e => .error e
      | .ok (st4, _) =>
        .ok (st4, { order := newOrderWithTotalPrice, points := points, items := orderItems })

/-- One full `createOrder` request.  The validation phase reads store `sv`;
the transaction body then runs against store `st` — under concurrent load
`st` need not still equal `sv`.  The first component is the store visible
after the request: validation failures open no transaction, and a failing
transaction body is rolled back by `prisma.$transaction`, so on any error it
is `st` unchanged. -/
def runCreateOrderAt (sv st : Store) (userId : Nat) (items : List LineItem) :
    Store × Except AppError OrderResult :=
  match createOrderValidate sv items with
  | .error e => (st, .error e)
  | .ok products =>
    match createOrderTx products items userId st with
    | .ok (st', r) => (st', .ok r)
    | .error e => (st, .error e)

/-- `createOrder` when no concurrent writer intervenes between validation
and transaction: both phases see the same store. -/
def createOrder (s : Store) (userId : Nat) (items : List LineItem) :
    Store × Except AppError OrderResult :=
  runCreateOrderAt s s userId items

/-! ## `transferPoint` (user controller) -/

/-- The body of a transfer request after `transferPointSchema` parsing:
`{ receiverId, amount }` (zod requires both to be positive integers; a body
failing the schema is rejected with `transferValidationError` before the
controller's own checks run). -/
structure TransferBody where
  receiverId : Nat
  amount : Int
deriving Repr, DecidableEq

/-- `throw new AppError(400, "Error in validation")` (schema rejection). -/
def transferValidationError : AppError := ⟨400, "Error in validation"⟩

/-- `throw new AppError(400, "Sender or Receiver not found")`. -/
def notFoundUserError : AppError := ⟨400, "Sender or Receiver not found"⟩

/-- `throw new AppError(400, "Can't self transfer point")`. -/
def selfTransferError : AppError := ⟨400, "Can\x27t self transfer point"⟩

/-- `throw new AppError(400, "Insufficient points")`. -/
def insufficientPointsError : AppError := ⟨400, "Insufficient points"⟩

/-- `prisma.user.findUnique({ where: { id } })`. -/
def findUser (s : Store) (uid : Nat) : Option User :=
  s.users.find? (fun u => u.id == uid)

/-- The `select: { id, email, point }` projection returned for both parties. -/
structure TransferUserView where
  id : Nat
  email : String
  point : Int
deriving Repr, DecidableEq

/-- Project a user row through `select: { id, email, point }`. -/
def userView (u : User) : TransferUserView := ⟨u.id, u.email, u.point⟩

/-- The value `transferPoint` responds with on success:
`{ sender: updatedSender, receiver: updatedReceiver }`. -/
structure TransferResult where
  sender : TransferUserView
  receiver : TransferUserView
deriving Repr, DecidableEq

/-- `transferPoint`: parse the body (zod rejects a non-positive amount, which
also makes the controller's own `amount <= 0` re-check unreachable), look up
sender (the authenticated user) and receiver, reject when either is missing,
on self-transfer, or when the sender's balance is below the amount; then, in
one `prisma.$transaction`, decrement the sender's and increment the
receiver's point balance and return both updated rows.  The first component
is the store visible after the request. -/
def transferPoint (s : Store) (senderId : Nat) (body : TransferBody) :
    Store × Except AppError TransferResult :=
  if body.amount ≤ 0 then (s, .error transferValidationError)
  else
    match findUser s senderId, findUser s body.receiverId with
    | some sender, some receiver =>
      if sender.id == receiver.id then (s, .error selfTransferError)
      else if sender.point < body.amount then (s, .error insufficientPointsError)
      else
        match updateUserPoint s sender.id (-body.amount) with
        | .error e => (s, .error e)
        | .ok (s1, updatedSender) =>
          match updateUserPoint s1 body.receiverId body.amount with
          | .error e => (s, .error e)
          | .ok (s2, updatedReceiver) =>
            (s2, .ok ⟨userView updatedSender, userView updatedReceiver⟩)
    | _, _ => (s, .error notFoundUserError)

/-! ## `getOrders` (order controller) -/

/-- The `role` of the JWT payload. -/
inductive Role where
  | ADMIN
  | USER
deriving Repr, DecidableEq

/-- The authenticated identity attached to the request by the auth
middleware. -/
structure JwtUser where
  id : Nat
  role : Role
deriving Repr, DecidableEq

/-- A sort direction; anything but `"asc"`/`"desc"` in the query falls back
to `"desc"`. -/
inductive SortDir where
  | asc
  | desc
deriving Repr, DecidableEq

/-- The `orderBy` object `buildOrderOrderBy` produces: one recognised sort
column with a direction (the fallback being `createdAt` descending). -/
inductive OrderOrderBy where
  | totalPrice (dir : SortDir)
  | createdAt (dir : SortDir)
deriving Repr, DecidableEq

/-- `const direction = dir === "asc" || dir === "desc" ? dir : "desc"`. -/
def parseSortDir (dir : Option String) : SortDir :=
  if dir = some "asc" then .asc
  else if dir = some "desc" then .desc
  else .desc

/-- `buildOrderOrderBy(sortBy)`: split on `"."`, keep a recognised column
with its direction, otherwise fall back to `createdAt` descending. -/
def buildOrderOrderBy (sortBy : Option String) : OrderOrderBy :=
  match sortBy with
  | none => .createdAt .desc
  | some str =>
    let parts := str.splitOn "."
    let col := parts.getD 0 ""
    let direction := parseSortDir parts[1]?
    if col = "totalPrice" then .totalPrice direction
    else if col = "createdAt" then .createdAt direction
    else .createdAt .desc

/-- The `where` object `buildOrderWhere` produces: either at least one real
clause (optional `userId` equality plus an optional `totalPrice` range), or,
when no parameter was supplied at all, the fallback
`{ items: { some: { totalPrice: { gte: 0 } } } }`. -/
inductive OrderWhere where
  | clauses (userId : Option Nat) (minPrice maxPrice : Option Int)
  | fallbackItemsSome
deriving Repr, DecidableEq

/-- `buildOrderWhere({ userId?, minPrice?, maxPrice? })`. -/
def buildOrderWhere (userId : Option Nat) (minPrice maxPrice : Option Int) :
    OrderWhere :=
  if userId = none ∧ minPrice = none ∧ maxPrice = none then .fallbackItemsSome
  else .clauses userId minPrice maxPrice

/-- Whether a total price lies in the (partial) `gte`/`lte` range. -/
def floatFilterMatches (minPrice maxPrice : Option Int) (v : Int) : Bool :=
  (match minPrice with | none => true | some m => decide (m ≤ v)) &&
  (match maxPrice with | none => true | some m => decide (v ≤ m))

/-- Whether an order row matches an `OrderWhere` (the fallback clause asks
for some order item of the order with a non-negative total). -/
def matchesOrderWhere (s : Store) (w : OrderWhere) (o : Order) : Bool :=
  match w with
  | .clauses userId minPrice maxPrice =>
    (match userId with | none => true | some uid => o.userId == uid) &&
    floatFilterMatches minPrice maxPrice (o.totalPrice : Int)
  | .fallbackItemsSome =>
    s.orderItems.any (fun it => it.orderId == o.id && decide (0 ≤ (it.totalPrice : Int)))

/-- The comparator realising the database sort for a given `orderBy`. -/
def orderLe (ob : OrderOrderBy) (a b : Order) : Bool :=
  match ob with
  | .totalPrice .asc => a.totalPrice ≤ b.totalPrice
  | .totalPrice .desc => b.totalPrice ≤ a.totalPrice
  | .createdAt .asc => a.createdAt ≤ b.createdAt
  | .createdAt .desc => b.createdAt ≤ a.createdAt

/-- The pagination envelope `paginationResponse` builds. -/
structure PageResult where
  limit : Nat
  page : Nat
  total : Nat
  data : List Order
deriving Repr, DecidableEq

/-- `getOrders`: an `ADMIN` caller filters only by the price range, every
other caller additionally by `userId = caller.id`; the matching orders are
sorted by the requested `orderBy` and paginated with
`take: limit, skip: (page - 1) * limit`, while `total` counts all matching
orders. -/
def getOrders (s : Store) (user : JwtUser) (sortBy : Option String)
    (minPrice maxPrice : Option Int) (limit page : Nat) : PageResult :=
  let orderBy := buildOrderOrderBy sortBy
  let wh :=
    if user.role = Role.ADMIN then buildOrderWhere none minPrice maxPrice
    else buildOrderWhere (some user.id) minPrice maxPrice
  let matching := s.orders.filter (matchesOrderWhere s wh)
  let sorted := matching.mergeSort (orderLe orderBy)
  { limit := limit
    page := page
    total := matching.length
    data := (sorted.drop ((page - 1) * limit)).take limit }

/-! ## Auxiliary notions and concrete scenarios used by the theorems -/

/-- A concurrent price change: overwrite the live price of the product with
the given id (all other fields and rows untouched). -/
def setPrice (s : Store) (pid : Nat) (v : Nat) : Store :=
  { s with
    products := s.products.map (fun p =>
      if p.id == pid then { p with price := v } else p) }

/-- The end-to-end scenario of the specification: user 7 with point balance
0; product 1 "A" (price 600, stock 5) and product 2 "B" (price 1500,
stock 2). -/
def demoStore : Store :=
  { products := [⟨1, "A", 600, 5, none⟩, ⟨2, "B", 1500, 2, none⟩]
    users := [⟨7, "alice", 0⟩]
    orders := []
    orderItems := []
    nextOrderId := 10
    nextItemId := 20
    now := 100 }

/-- `demoStore` as a concurrent writer left it at transaction entry: the
stock of product 1 has dropped from 5 to 1. -/
def demoStoreRaced : Store :=
  { demoStore with products := [⟨1, "A", 600, 1, none⟩, ⟨2, "B", 1500, 2, none⟩] }

/-- `demoStore` as a concurrent writer left it at transaction entry:
product 1 is gone from the table entirely, so its row update rejects. -/
def demoStoreGone : Store :=
  { demoStore with products := [⟨2, "B", 1500, 2, none⟩] }

/-- A two-user store for the point-transfer scenarios: user 7 holds 10
points, user 8 holds 3. -/
def transferStore : Store :=
  { products := []
    users := [⟨7, "alice", 10⟩, ⟨8, "bob", 3⟩]
    orders := []
    orderItems := []
    nextOrderId := 1
    nextItemId := 1
    now := 0 }

/-- A store with orders of two different users, for the `getOrders`
scoping scenario. -/
def ordersStore : Store :=
  { products := []
    users := [⟨7, "alice", 0⟩, ⟨8, "bob", 0⟩]
    orders := [⟨1, 7, 500, 1⟩, ⟨2, 8, 700, 2⟩, ⟨3, 7, 900, 3⟩]
    orderItems := []
    nextOrderId := 4
    nextItemId := 1
    now := 0 }

/-! ## Generic list lemmas -/

/-- `find?` commutes with a map that does not change the predicate's
verdict. -/
theorem find?_map_comm {α : Type} (f : α → α) (p : α → Bool)
    (hp : ∀ x, p (f x) = p x) :
    ∀ l : List α, (l.map f).find? p = (l.find? p).map f := by
  intro l
  induction l with
  | nil => rfl
  | cons a t ih =>
    by_cases ha : p a = true
    · simp [List.find?_cons, hp a, ha]
    · simp only [Bool.not_eq_true] at ha
      simp [List.find?_cons, hp a, ha, ih]

/-- `find?` skips a prefix on which the predicate is everywhere false. -/
theorem find?_append_of_none {α : Type} (p : α → Bool) {l₁ : List α}
    (h : ∀ a ∈ l₁, p a = false) (l₂ : List α) :
    (l₁ ++ l₂).find? p = l₂.find? p := by
  rw [List.find?_append]
  have : l₁.find? p = none := List.find?_eq_none.mpr (by
    intro x hx
    simp [h x hx])
  rw [this, Option.none_or]

/-- Summation form of the `reduce` accumulating the line totals. -/
theorem foldl_totalPrice_sum (is : List OrderItem) :
    ∀ acc : Nat, is.foldl (fun a it => a + it.totalPrice) acc
      = acc + (is.map (·.totalPrice)).sum := by
  induction is with
  | nil => intro acc; simp
  | cons a t ih =>
    intro acc
    simp only [List.foldl_cons, List.map_cons, List.sum_cons, ih]
    omega

/-! ## Characterisations of the primitive store operations -/

/-- A successful stock decrement changes only the `products` table: the
matching rows lose `q` units of stock, everything else is untouched. -/
theorem decrementStock_ok {s s' : Store} {pid : Nat} {q : Nat}
    (h : decrementStock s pid q = .ok s') :
    s'.products = s.products.map (fun p =>
        if p.id == pid then { p with stock := p.stock - (q : Int) } else p) ∧
    s'.users = s.users ∧ s'.orders = s.orders ∧
    s'.orderItems = s.orderItems ∧ s'.nextOrderId = s.nextOrderId ∧
    s'.nextItemId = s.nextItemId ∧ s'.now = s.now := by
  unfold decrementStock at h
  split at h
  · simp only [Except.ok.injEq] at h
    subst h
    exact ⟨rfl, rfl, rfl, rfl, rfl, rfl, rfl⟩
  · exact absurd h (by simp)

/-- A successful user-point update changes only the `users` table, adding
`delta` to the matching rows, and returns the first matching row updated. -/
theorem updateUserPoint_ok {s s' : Store} {uid : Nat} {delta : Int} {u' : User}
    (h : updateUserPoint s uid delta = .ok (s', u')) :
    s'.users = s.users.map (fun x =>
        if x.id == uid then { x with point := x.point + delta } else x) ∧
    s'.products = s.products ∧ s'.orders = s.orders ∧
    s'.orderItems = s.orderItems ∧ s'.nextOrderId = s.nextOrderId ∧
    s'.nextItemId = s.nextItemId ∧ s'.now = s.now ∧
    ∃ u, s.users.find? (fun x => x.id == uid) = some u ∧
      u' = { u with point := u.point + delta } := by
  unfold updateUserPoint at h
  split at h
  · exact absurd h (by simp)
  next u heq =>
    simp only [Except.ok.injEq, Prod.mk.injEq] at h
    obtain ⟨h1, h2⟩ := h
    subst h1
    exact ⟨rfl, rfl, rfl, rfl, rfl, rfl, rfl, u, heq, h2.symm⟩

/-- A successful order-total update changes only the `orders` table, adding
`inc` to the matching rows, and returns the first matching row updated. -/
theorem incrementOrderTotal_ok {s s' : Store} {oid : Nat} {inc : Nat} {o' : Order}
    (h : incrementOrderTotal s oid inc = .ok (s', o')) :
    s'.orders = s.orders.map (fun x =>
        if x.id == oid then { x with totalPrice := x.totalPrice + inc } else x) ∧
    s'.products = s.products ∧ s'.users = s.users ∧
    s'.orderItems = s.orderItems ∧ s'.nextOrderId = s.nextOrderId ∧
    s'.nextItemId = s.nextItemId ∧ s'.now = s.now ∧
    ∃ o, s.orders.find? (fun x => x.id == oid) = some o ∧
      o' = { o with totalPrice := o.totalPrice + inc } := by
  unfold incrementOrderTotal at h
  split at h
  · exact absurd h (by simp)
  next o heq =>
    simp only [Except.ok.injEq, Prod.mk.injEq] at h
    obtain ⟨h1, h2⟩ := h
    subst h1
    exact ⟨rfl, rfl, rfl, rfl, rfl, rfl, rfl, o, heq, h2.symm⟩

/-- A successful per-line step: the produced `OrderItem` carries the
snapshot unit price and the line total `price * quantity`, it is appended to
the `orderItems` table, the line's stock is decremented, and no other table
is touched. -/
theorem createOrderLine_ok {products : List Product} {oid : Nat} {st st' : Store}
    {it : LineItem} {item : OrderItem}
    (h : createOrderLine products oid st it = .ok (st', item)) :
    st'.users = st.users ∧ st'.orders = st.orders ∧
    st'.orderItems = st.orderItems ++ [item] ∧
    st'.nextOrderId = st.nextOrderId ∧ st'.now = st.now ∧
    ∃ p, products.find? (fun q => q.id == it.productId) = some p ∧
      item.orderId = oid ∧ item.productId = p.id ∧
      item.quantity = it.quantity ∧ item.unitPrice = p.price ∧
      item.totalPrice = p.price * it.quantity := by
  unfold createOrderLine at h
  split at h
  · exact Except.noConfusion h
  next product heq =>
    split at h
    · exact Except.noConfusion h
    next st1 hds =>
      simp only [Except.ok.injEq, Prod.mk.injEq] at h
      obtain ⟨h1, h2⟩ := h
      obtain ⟨hp, hu, ho, hi, hno, hni, hnow⟩ := decrementStock_ok hds
      subst h1
      refine ⟨hu, ho, ?_, hno, hnow, product, heq, ?_, ?_, ?_, ?_, ?_⟩ <;>
        simp [← h2, hi]

/-- A successful run of the whole per-line loop: the created items are
appended to the `orderItems` table in input order, every created item
carries its snapshot unit price and the line total
`unitPrice * quantity`, and the `users` and `orders` tables are untouched. -/
theorem createOrderLines_ok {products : List Product} {oid : Nat} :
    ∀ {st st' : Store} {items : List LineItem} {is : List OrderItem},
    createOrderLines products oid st items = .ok (st', is) →
    st'.users = st.users ∧ st'.orders = st.orders ∧
    st'.orderItems = st.orderItems ++ is ∧
    st'.nextOrderId = st.nextOrderId ∧ st'.now = st.now ∧
    ∀ item ∈ is, ∃ p, products.find? (fun q => q.id == item.productId) = some p ∧
      item.orderId = oid ∧ item.unitPrice = p.price ∧
      item.totalPrice = item.unitPrice * item.quantity := by
  intro st st' items
  induction items generalizing st with
  | nil =>
    intro is h
    unfold createOrderLines at h
    simp only [Except.ok.injEq, Prod.mk.injEq] at h
    obtain ⟨h1, h2⟩ := h
    subst h1; subst h2
    simp
  | cons it rest ih =>
    intro is h
    unfold createOrderLines at h
    split at h
    · exact Except.noConfusion h
    next st1 item hline =>
      split at h
      · exact Except.noConfusion h
      next st2 isRest hrest =>
        simp only [Except.ok.injEq, Prod.mk.injEq] at h
        obtain ⟨h1, h2⟩ := h
        subst h1
        subst h2
        obtain ⟨hu1, ho1, hi1, hno1, hnow1, p, hp, hoid, hpid, hq, hup, htp⟩ :=
          createOrderLine_ok hline
        obtain ⟨hu2, ho2, hi2, hno2, hnow2, hitems⟩ := ih hrest
        refine ⟨hu2.trans hu1, ho2.trans ho1, ?_, hno2.trans hno1, hnow2.trans hnow1, ?_⟩
        · rw [hi2, hi1, List.append_assoc]
          rfl
        · intro x hx
          rcases List.mem_cons.mp hx with hx | hx
          · subst hx
            refine ⟨p, ?_, hoid, hup, by rw [htp, hup, hq]⟩
            have hid : p.id = it.productId := by simpa using List.find?_some hp
            rw [hpid, hid]
            exact hp
          · exact hitems x hx

/-- Characterisation of a successful transaction body, for a store whose
order-id sequence is ahead of every existing order row: the returned header
is the newly created order, its total is the sum of the created line totals,
every line total is `unitPrice * quantity` with the unit price taken from the
snapshot, the points are `total / 1000`, the items are appended to the
`orderItems` table, the header (as returned) is persisted, and the buyer's
point balance is credited by the points. -/
theorem createOrderTx_ok {products : List Product} {items : List LineItem}
    {uid : Nat} {st st' : Store} {r : OrderResult}
    (hord : ∀ o ∈ st.orders, o.id < st.nextOrderId)
    (h : createOrderTx products items uid st = .ok (st', r)) :
    r.order.id = st.nextOrderId ∧
    r.order.userId = uid ∧
    r.order.totalPrice = (r.items.map (·.totalPrice)).sum ∧
    r.points = r.order.totalPrice / 1000 ∧
    st'.orderItems = st.orderItems ++ r.items ∧
    st'.orders.find? (fun o => o.id == r.order.id) = some r.order ∧
    (∀ item ∈ r.items, ∃ p,
       products.find? (fun q => q.id == item.productId) = some p ∧
       item.orderId = r.order.id ∧ item.unitPrice = p.price ∧
       item.totalPrice = item.unitPrice * item.quantity) ∧
    st'.users = st.users.map (fun x =>
       if x.id == uid then { x with point := x.point + (r.points : Int) } else x) ∧
    (∃ u, st.users.find? (fun x => x.id == uid) = some u) := by
  unfold createOrderTx at h
  simp only [] at h
  split at h
  · exact Except.noConfusion h
  next st2 orderItems hlines =>
    split at h
    · exact Except.noConfusion h
    next st3 nOrd hinc =>
      split at h
      · exact Except.noConfusion h
      next st4 u4 hupd =>
        simp only [Except.ok.injEq, Prod.mk.injEq] at h
        obtain ⟨h1, h2⟩ := h
        subst h1
        obtain ⟨hu2, ho2, hi2, hno2, hnow2, hitems⟩ := createOrderLines_ok hlines
        obtain ⟨ho3, hp3, hu3, hi3, hno3, hni3, hnow3, o, hfind, hoeq⟩ :=
          incrementOrderTotal_ok hinc
        obtain ⟨hu4, hp4, ho4, hi4, hno4, hni4, hnow4, u, hufind, hueq⟩ :=
          updateUserPoint_ok hupd
        have hordersSt2 : st2.orders = st.orders ++
            [{ id := st.nextOrderId, userId := uid, totalPrice := 0,
               createdAt := st.now }] := ho2
        have hnone : ∀ x ∈ st.orders, (fun o => o.id == st.nextOrderId) x = false := by
          intro x hx
          simp only [beq_eq_false_iff_ne, ne_eq]
          exact Nat.ne_of_lt (hord x hx)
        have hfind' : st2.orders.find? (fun x => x.id == st.nextOrderId) =
            some { id := st.nextOrderId, userId := uid, totalPrice := 0,
                   createdAt := st.now } := by
          rw [hordersSt2, find?_append_of_none _ hnone]
          simp [List.find?_cons]
        have ho : o = { id := st.nextOrderId, userId := uid, totalPrice := 0,
                        createdAt := st.now } := by
          rw [hfind] at hfind'
          injection hfind'
        subst ho
        have htotal : orderItems.foldl (fun acc item => acc + item.totalPrice) 0 =
            (orderItems.map (·.totalPrice)).sum := by
          rw [foldl_totalPrice_sum]
          omega
        have hnOrd : nOrd =
            { id := st.nextOrderId, userId := uid,
              totalPrice := (orderItems.map (·.totalPrice)).sum,
              createdAt := st.now } := by
          rw [hoeq]
          simp [htotal]
        have hr : r =
            { order := nOrd,
              points := orderItems.foldl (fun acc item => acc + item.totalPrice) 0 / 1000,
              items := orderItems } := h2.symm
        subst hr
        refine ⟨?_, ?_, ?_, ?_, ?_, ?_, ?_, ?_, ?_⟩
        · rw [hnOrd]
        · rw [hnOrd]
        · rw [hnOrd]
        · rw [hnOrd, htotal]
        · rw [hi4, hi3, hi2]
        · rw [ho4, ho3]
          have hpres : ∀ x : Order,
              (fun o => o.id == nOrd.id)
                ((fun x => if x.id == st.nextOrderId then
                    { x with totalPrice := x.totalPrice +
                        orderItems.foldl (fun acc item => acc + item.totalPrice) 0 }
                  else x) x) =
              (fun o => o.id == nOrd.id) x := by
            intro x
            by_cases hx : x.id == st.nextOrderId <;> simp [hx]
          rw [find?_map_comm _ _ hpres, hnOrd]
          rw [hordersSt2, find?_append_of_none _ (by
            intro x hx
            simp only [beq_eq_false_iff_ne, ne_eq]
            exact Nat.ne_of_lt (hord x hx))]
          simp [List.find?_cons, htotal]
        · intro item hitem
          obtain ⟨p, hp, hoid, hup, htp⟩ := hitems item hitem
          exact ⟨p, hp, by rw [hoid, hnOrd], hup, htp⟩
        · rw [hu4, hu3, hu2]
        · rw [hu3, hu2] at hufind
          exact ⟨u, hufind⟩


/-! ## Unfolding equations for a full request -/

/-- A request whose validation phase fails opens no transaction: the store
is unchanged and the validation error is the response. -/
theorem runCreateOrderAt_validate_error {sv st : Store} {uid : Nat}
    {items : List LineItem} {e : AppError}
    (hv : createOrderValidate sv items = .error e) :
    runCreateOrderAt sv st uid items = (st, .error e) := by
  unfold runCreateOrderAt
  rw [hv]

/-- A request whose transaction body commits responds with its result. -/
theorem runCreateOrderAt_tx_ok {sv st st' : Store} {uid : Nat}
    {items : List LineItem} {products : List Product} {r : OrderResult}
    (hv : createOrderValidate sv items = .ok products)
    (htx : createOrderTx products items uid st = .ok (st', r)) :
    runCreateOrderAt sv st uid items = (st', .ok r) := by
  unfold runCreateOrderAt
  simp only [hv, htx]

/-- A request whose transaction body fails is rolled back: the store is as
at transaction entry and the body's error is the response. -/
theorem runCreateOrderAt_tx_error {sv st : Store} {uid : Nat}
    {items : List LineItem} {products : List Product} {e : AppError}
    (hv : createOrderValidate sv items = .ok products)
    (htx : createOrderTx products items uid st = .error e) :
    runCreateOrderAt sv st uid items = (st, .error e) := by
  unfold runCreateOrderAt
  simp only [hv, htx]

/-- Inversion: a successful request passed validation and committed its
transaction body, whose final store is the request's visible store. -/
theorem runCreateOrderAt_ok_inv {sv st : Store} {uid : Nat}
    {items : List LineItem} {r : OrderResult}
    (h : (runCreateOrderAt sv st uid items).2 = .ok r) :
    ∃ products, createOrderValidate sv items = .ok products ∧
      createOrderTx products items uid st
        = .ok ((runCreateOrderAt sv st uid items).1, r) := by
  cases hv : createOrderValidate sv items with
  | error e =>
    rw [runCreateOrderAt_validate_error hv] at h
    exact absurd h (by simp)
  | ok products =>
    cases htx : createOrderTx products items uid st with
    | error e =>
      rw [runCreateOrderAt_tx_error hv htx] at h
      exact absurd h (by simp)
    | ok p =>
      obtain ⟨st', r'⟩ := p
      rw [runCreateOrderAt_tx_ok hv htx] at h
      have hr : r' = r := by simpa using h
      subst hr
      exact ⟨products, rfl, by rw [runCreateOrderAt_tx_ok hv htx]; exact htx⟩

/-! ## Claim theorems -/

/-- C1: for every successful `createOrder`, the returned order's
`totalPrice` equals the sum of the `totalPrice` values of the `OrderItem`s
created for it, every created item's `totalPrice` equals its `unitPrice`
times its `quantity`, the returned header is exactly the persisted order
row, and the created items are exactly the rows appended to the
`orderItems` table.  (The hypothesis is the id-sequence invariant of the
store: every existing order id is below the next sequence value.) -/
theorem createOrder_total_consistency {sv st : Store} {uid : Nat}
    {items : List LineItem} {r : OrderResult}
    (hord : ∀ o ∈ st.orders, o.id < st.nextOrderId)
    (h : (runCreateOrderAt sv st uid items).2 = .ok r) :
    r.order.totalPrice = (r.items.map (·.totalPrice)).sum ∧
    (∀ item ∈ r.items, item.totalPrice = item.unitPrice * item.quantity) ∧
    (runCreateOrderAt sv st uid items).1.orders.find? (fun o => o.id == r.order.id)
      = some r.order ∧
    (runCreateOrderAt sv st uid items).1.orderItems = st.orderItems ++ r.items := by
  obtain ⟨products, hv, htx⟩ := runCreateOrderAt_ok_inv h
  obtain ⟨hid, huid, htot, hpts, hitems, hfind, hlineitems, husers, hex⟩ :=
    createOrderTx_ok hord htx
  exact ⟨htot, fun item hm => ((hlineitems item hm).choose_spec).2.2.2, hfind, hitems⟩

/-- Witness for C1: the end-to-end scenario of the specification (2 units of
product 1 at 600 and 1 unit of product 2 at 1500 give a 2700 total split
1200 + 1500 across the two created items). -/
theorem createOrder_total_consistency_witness :
    (⟨⟨10, 7, 2700, 100⟩, 2,
      [⟨20, 10, 1, 2, 600, 1200⟩, ⟨21, 10, 2, 1, 1500, 1500⟩]⟩ :
        OrderResult).order.totalPrice
      = ((⟨⟨10, 7, 2700, 100⟩, 2,
          [⟨20, 10, 1, 2, 600, 1200⟩, ⟨21, 10, 2, 1, 1500, 1500⟩]⟩ :
            OrderResult).items.map (·.totalPrice)).sum :=
  (@createOrder_total_consistency demoStore demoStore 7 [⟨1, 2⟩, ⟨2, 1⟩]
    ⟨⟨10, 7, 2700, 100⟩, 2, [⟨20, 10, 1, 2, 600, 1200⟩, ⟨21, 10, 2, 1, 1500, 1500⟩]⟩
    (by decide) rfl).1

/-- C2: for every successful `createOrder`, the returned `points` value
equals `floor(order total / 1000)` (Nat division), and within the same
transaction the purchasing user's point balance is incremented by exactly
that amount: if the user's row held `u` at transaction entry, the visible
store afterwards holds it with `u.point + points`. -/
theorem createOrder_points_accrual {sv st : Store} {uid : Nat}
    {items : List LineItem} {r : OrderResult}
    (hord : ∀ o ∈ st.orders, o.id < st.nextOrderId)
    (h : (runCreateOrderAt sv st uid items).2 = .ok r) :
    r.points = r.order.totalPrice / 1000 ∧
    ∀ u, findUser st uid = some u →
      findUser (runCreateOrderAt sv st uid items).1 uid
        = some { u with point := u.point + (r.points : Int) } := by
  obtain ⟨products, hv, htx⟩ := runCreateOrderAt_ok_inv h
  obtain ⟨hid, huid, htot, hpts, hitems, hfind, hlineitems, husers, hex⟩ :=
    createOrderTx_ok hord htx
  refine ⟨hpts, ?_⟩
  intro u hu
  unfold findUser at hu ⊢
  rw [husers]
  have hp : ∀ x : User,
      (fun v => v.id == uid)
        ((fun x => if x.id == uid then
            { x with point := x.point + (r.points : Int) } else x) x) =
      (fun v => v.id == uid) x := by
    intro x
    by_cases hx : x.id == uid <;> simp [hx]
  rw [find?_map_comm _ _ hp, hu]
  have hue : (u.id == uid) = true := by
    have h0 := List.find?_some (p := fun (v : User) => v.id == uid) hu
    simpa using h0
  rw [Option.map_some', hue]
  simp

/-- Witness for C2: in the end-to-end scenario the 2700 total earns
`2700 / 1000 = 2` points and user 7 goes from 0 to 2 points. -/
theorem createOrder_points_accrual_witness :
    findUser (runCreateOrderAt demoStore demoStore 7 [⟨1, 2⟩, ⟨2, 1⟩]).1 7
      = some ⟨7, "alice", 0 + ((2 : Nat) : Int)⟩ :=
  (@createOrder_points_accrual demoStore demoStore 7 [⟨1, 2⟩, ⟨2, 1⟩]
    ⟨⟨10, 7, 2700, 100⟩, 2, [⟨20, 10, 1, 2, 600, 1200⟩, ⟨21, 10, 2, 1, 1500, 1500⟩]⟩
    (by decide) rfl).2 ⟨7, "alice", 0⟩ rfl

/-- C4: if any step inside the transactional phase fails, the whole
transaction aborts: the request responds with that single error and the
visible store is exactly the store at transaction entry — no order row, no
order-item row, no stock decrement and no point credit from the attempt
survives. -/
theorem createOrder_tx_rollback {sv st : Store} {uid : Nat}
    {items : List LineItem} {products : List Product} {e : AppError}
    (hv : createOrderValidate sv items = .ok products)
    (htx : createOrderTx products items uid st = .error e) :
    runCreateOrderAt sv st uid items = (st, .error e) ∧
    (runCreateOrderAt sv st uid items).1.orders = st.orders ∧
    (runCreateOrderAt sv st uid items).1.orderItems = st.orderItems ∧
    (runCreateOrderAt sv st uid items).1.products = st.products ∧
    (runCreateOrderAt sv st uid items).1.users = st.users := by
  have h := runCreateOrderAt_tx_error hv htx
  rw [h]
  exact ⟨rfl, rfl, rfl, rfl, rfl⟩

/-- Witness for C4: validation read product 1 from `demoStore`, but at
transaction entry the row is gone (`demoStoreGone`), so the in-transaction
update rejects and the request leaves `demoStoreGone` untouched. -/
theorem createOrder_tx_rollback_witness :
    runCreateOrderAt demoStore demoStoreGone 7 [⟨1, 1⟩]
      = (demoStoreGone, .error recordNotFoundError) :=
  (@createOrder_tx_rollback demoStore demoStoreGone 7 [⟨1, 1⟩]
    [⟨1, "A", 600, 5, none⟩] recordNotFoundError rfl rfl).1

/-- C3 (the code against the claim): the per-line stock decrement inside the
transaction is not conditional on the stock still being sufficient at write
time.  With validation performed on `demoStore` (product 1 stock 5) but the
transaction entered on `demoStoreRaced` (a concurrent order left stock 1),
the order for 2 units still commits and drives product 1's stock to -1
instead of being rejected. -/
theorem createOrder_commits_negative_stock :
    (runCreateOrderAt demoStore demoStoreRaced 7 [⟨1, 2⟩]).2
      = .ok ⟨⟨10, 7, 1200, 100⟩, 1, [⟨20, 10, 1, 2, 600, 1200⟩]⟩ ∧
    ((runCreateOrderAt demoStore demoStoreRaced 7 [⟨1, 2⟩]).1.products.map
        (fun p => (p.id, p.stock)))
      = [(1, -1), (2, 2)] :=
  ⟨rfl, rfl⟩

/-! ## Validation-phase lemmas -/

/-- With unique product ids in the store, the resolved rows have unique ids. -/
theorem findProducts_ids_nodup (s : Store) (ids : List Nat)
    (hs : (s.products.map (·.id)).Nodup) :
    ((findProducts s ids).map (·.id)).Nodup :=
  List.Nodup.sublist ((List.filter_sublist s.products).map (·.id)) hs

/-- With unique product ids in the store, at most one row resolves per
requested id, so the resolved count never exceeds the request length. -/
theorem findProducts_length_le (s : Store) (ids : List Nat)
    (hs : (s.products.map (·.id)).Nodup) :
    (findProducts s ids).length ≤ ids.length := by
  have hnodup := findProducts_ids_nodup s ids hs
  have hsub : (findProducts s ids).map (·.id) ⊆ ids := by
    intro x hx
    obtain ⟨p, hp, hpx⟩ := List.mem_map.mp hx
    have hmem := (List.mem_filter.mp hp).2
    rw [decide_eq_true_eq] at hmem
    exact hpx ▸ hmem.1
  have hle := (List.subperm_of_subset hnodup hsub).length_le
  simpa using hle

/-- When the requested ids are pairwise distinct and every one resolves to a
live product, the resolved count equals the request length. -/
theorem findProducts_length_eq (s : Store) (ids : List Nat)
    (hs : (s.products.map (·.id)).Nodup) (hd : ids.Nodup)
    (hr : ∀ i ∈ ids, ∃ p ∈ s.products, p.id = i ∧ p.deletedAt = none) :
    (findProducts s ids).length = ids.length := by
  have hle := findProducts_length_le s ids hs
  have hsub : ids ⊆ (findProducts s ids).map (·.id) := by
    intro i hi
    obtain ⟨p, hps, hpid, hpd⟩ := hr i hi
    refine List.mem_map.mpr ⟨p, ?_, hpid⟩
    refine List.mem_filter.mpr ⟨hps, ?_⟩
    rw [decide_eq_true_eq]
    exact ⟨by rw [hpid]; exact hi, hpd⟩
  have hge := (List.subperm_of_subset hd hsub).length_le
  simp only [List.length_map] at hge
  omega

/-- The resolved-count check rejects with the not-found error. -/
theorem createOrderValidate_eq_notFound {s : Store} {items : List LineItem}
    (h : (findProducts s (items.map (·.productId))).length ≠ items.length) :
    createOrderValidate s items = .error notFoundError := by
  unfold createOrderValidate
  rw [if_pos (by simpa using h)]

/-- With the resolved-count check passing, the first stock violation
rejects with the insufficient-stock error naming its product. -/
theorem createOrderValidate_eq_stockError {s : Store} {items : List LineItem}
    {it : LineItem} {p : Product}
    (hlen : (findProducts s (items.map (·.productId))).length = items.length)
    (hfv : firstStockViolation (findProducts s (items.map (·.productId))) items
      = some (it, p)) :
    createOrderValidate s items = .error (stockError p.name) := by
  unfold createOrderValidate
  rw [if_neg (by simpa using hlen)]
  simp only [hfv]

/-- With both checks passing, validation returns the resolved snapshot. -/
theorem createOrderValidate_eq_ok {s : Store} {items : List LineItem}
    (hlen : (findProducts s (items.map (·.productId))).length = items.length)
    (hfv : firstStockViolation (findProducts s (items.map (·.productId))) items
      = none) :
    createOrderValidate s items
      = .ok (findProducts s (items.map (·.productId))) := by
  unfold createOrderValidate
  rw [if_neg (by simpa using hlen)]
  simp only [hfv]

/-! ## Which errors each phase can produce -/

/-- A failing stock decrement always reports the missing-row error. -/
theorem decrementStock_error {s : Store} {pid q : Nat} {e : AppError}
    (h : decrementStock s pid q = .error e) : e = recordNotFoundError := by
  unfold decrementStock at h
  split at h
  · exact Except.noConfusion h
  · injection h with h
    exact h.symm

/-- A failing per-line step always reports the missing-row error. -/
theorem createOrderLine_error {products : List Product} {oid : Nat} {st : Store}
    {it : LineItem} {e : AppError}
    (h : createOrderLine products oid st it = .error e) :
    e = recordNotFoundError := by
  unfold createOrderLine at h
  split at h
  · injection h with h
    exact h.symm
  · split at h
    next e' hds =>
      injection h with h
      exact h ▸ decrementStock_error hds
    · exact Except.noConfusion h

/-- A failing per-line loop always reports the missing-row error. -/
theorem createOrderLines_error {products : List Product} {oid : Nat} :
    ∀ {st : Store} {items : List LineItem} {e : AppError},
    createOrderLines products oid st items = .error e →
    e = recordNotFoundError := by
  intro st items
  induction items generalizing st with
  | nil =>
    intro e h
    exact Except.noConfusion h
  | cons it rest ih =>
    intro e h
    unfold createOrderLines at h
    split at h
    next e' hline =>
      injection h with h
      exact h ▸ createOrderLine_error hline
    next st1 item hline =>
      split at h
      next e' hrest =>
        injection h with h
        exact h ▸ ih hrest
      · exact Except.noConfusion h

/-- A failing order-total update always reports the missing-row error. -/
theorem incrementOrderTotal_error {s : Store} {oid inc : Nat} {e : AppError}
    (h : incrementOrderTotal s oid inc = .error e) : e = recordNotFoundError := by
  unfold incrementOrderTotal at h
  split at h
  · injection h with h
    exact h.symm
  · exact Except.noConfusion h

/-- A failing point update always reports the missing-row error. -/
theorem updateUserPoint_error {s : Store} {uid : Nat} {d : Int} {e : AppError}
    (h : updateUserPoint s uid d = .error e) : e = recordNotFoundError := by
  unfold updateUserPoint at h
  split at h
  · injection h with h
    exact h.symm
  · exact Except.noConfusion h

/-- A failing transaction body always reports the missing-row error. -/
theorem createOrderTx_error {products : List Product} {items : List LineItem}
    {uid : Nat} {st : Store} {e : AppError}
    (h : createOrderTx products items uid st = .error e) :
    e = recordNotFoundError := by
  unfold createOrderTx at h
  simp only [] at h
  split at h
  next e' hlines =>
    injection h with h
    exact h ▸ createOrderLines_error hlines
  next st2 is hlines =>
    split at h
    next e' hinc =>
      injection h with h
      exact h ▸ incrementOrderTotal_error hinc
    next st3 o hinc =>
      split at h
      next e' hupd =>
        injection h with h
        exact h ▸ updateUserPoint_error hupd
      · exact Except.noConfusion h

/-! ## Distinctness of the raised errors -/

/-- The insufficient-stock error never coincides with the not-found error,
whatever the product is called. -/
theorem stockError_ne_notFoundError (name : String) :
    stockError name ≠ notFoundError := by
  intro h
  have hm : "Not enough stock for product " ++ name
      = "One or more products not found" := congrArg AppError.msg h
  have hd := congrArg String.data hm
  rw [String.data_append] at hd
  have hL : ("Not enough stock for product ").data
      = 'N' :: ("ot enough stock for product ").data := rfl
  have hR : ("One or more products not found").data
      = 'O' :: ("ne or more products not found").data := rfl
  rw [hL, hR, List.cons_append, List.cons.injEq] at hd
  exact absurd hd.1 (by decide)

/-- The missing-row error never coincides with the not-found error. -/
theorem recordNotFoundError_ne_notFoundError :
    recordNotFoundError ≠ notFoundError := by
  intro h
  exact absurd (congrArg AppError.status h) (by decide)

/-- C5 counterexample: a request that repeats the productId of an existing,
non-deleted product is rejected with the not-found error although its single
distinct productId resolves — the source compares the resolved row count
against the raw (duplicated) line count, not the distinct id count. -/
theorem createOrder_duplicate_id_rejected_notFound :
    ((([⟨1, 1⟩, ⟨1, 1⟩] : List LineItem).map (·.productId)).dedup).length = 1 ∧
    (findProducts demoStore
      (([⟨1, 1⟩, ⟨1, 1⟩] : List LineItem).map (·.productId))).length = 1 ∧
    (createOrder demoStore 7 [⟨1, 1⟩, ⟨1, 1⟩]).2 = .error notFoundError :=
  ⟨rfl, rfl, rfl⟩

/-- C5 amended: with unique product ids in the store, `createOrder` raises
the not-found error exactly when the number of resolved non-deleted products
is smaller than the number of requested lines (productIds counted with
multiplicity); and every rejected request leaves the store unchanged. -/
theorem createOrder_notFound_iff {s : Store} {uid : Nat} {items : List LineItem}
    (hs : (s.products.map (·.id)).Nodup) :
    ((createOrder s uid items).2 = .error notFoundError ↔
      (findProducts s (items.map (·.productId))).length < items.length) ∧
    (∀ e, (createOrder s uid items).2 = .error e →
      (createOrder s uid items).1 = s) := by
  constructor
  · constructor
    · intro h
      by_contra hnlt
      have hle := findProducts_length_le s (items.map (·.productId)) hs
      rw [List.length_map] at hle
      have hlen : (findProducts s (items.map (·.productId))).length
          = items.length := by omega
      cases hfv : firstStockViolation (findProducts s (items.map (·.productId)))
          items with
      | some pr =>
        obtain ⟨it, p⟩ := pr
        have hval := createOrderValidate_eq_stockError hlen hfv
        unfold createOrder at h
        rw [@runCreateOrderAt_validate_error s s uid items _ hval] at h
        simp only [Except.error.injEq] at h
        exact stockError_ne_notFoundError p.name h
      | none =>
        have hval := createOrderValidate_eq_ok hlen hfv
        cases htx : createOrderTx (findProducts s (items.map (·.productId)))
            items uid s with
        | ok pr =>
          obtain ⟨st', r⟩ := pr
          unfold createOrder at h
          rw [@runCreateOrderAt_tx_ok s s st' uid items _ r hval htx] at h
          exact absurd h (by simp)
        | error e =>
          have he := createOrderTx_error htx
          unfold createOrder at h
          rw [@runCreateOrderAt_tx_error s s uid items _ e hval htx] at h
          simp only [Except.error.injEq] at h
          exact recordNotFoundError_ne_notFoundError (he ▸ h)
    · intro hlt
      have hval : createOrderValidate s items = .error notFoundError :=
        createOrderValidate_eq_notFound (by omega)
      unfold createOrder
      rw [@runCreateOrderAt_validate_error s s uid items _ hval]
  · intro e he
    cases hv : createOrderValidate s items with
    | error e' =>
      unfold createOrder
      rw [@runCreateOrderAt_validate_error s s uid items e' hv]
    | ok products =>
      cases htx : createOrderTx products items uid s with
      | error e' =>
        unfold createOrder
        rw [@runCreateOrderAt_tx_error s s uid items products e' hv htx]
      | ok pr =>
        obtain ⟨st', r⟩ := pr
        unfold createOrder at he
        rw [@runCreateOrderAt_tx_ok s s st' uid items products r hv htx] at he
        exact absurd he (by simp)

/-- Witness for the amended C5: requesting the nonexistent product 3 resolves
0 < 1 products and is rejected as not-found. -/
theorem createOrder_notFound_iff_witness :
    (createOrder demoStore 7 [⟨3, 1⟩]).2 = .error notFoundError :=
  (@createOrder_notFound_iff demoStore 7 [⟨3, 1⟩] (by decide)).1.mpr (by decide)

/-- C6 counterexample: with product 1 live at stock 5, the request
`[(1, 9), (1, 9)]` has all its distinct productIds resolved and a line whose
quantity 9 exceeds the stock 5, yet it fails with the not-found error, not
with the insufficient-stock error naming product "A" — the duplicate
productId trips the resolved-count check first. -/
theorem createOrder_duplicate_masks_stockError :
    ((findProducts demoStore
      (([⟨1, 9⟩, ⟨1, 9⟩] : List LineItem).map (·.productId))).map (·.id)) = [1] ∧
    ((5 : Int) < 9) ∧
    (createOrder demoStore 7 [⟨1, 9⟩, ⟨1, 9⟩]).2 = .error notFoundError ∧
    notFoundError ≠ stockError "A" :=
  ⟨rfl, by decide, rfl, by decide⟩

/-- C6 amended: if the requested productIds are pairwise distinct and every
one resolves to a live product, and some line's quantity exceeds its
resolved product's stock, then `createOrder` fails before the transaction
with the insufficient-stock error naming the first offending product in
input order, and the store is left unchanged. -/
theorem createOrder_insufficient_stock {s : Store} {uid : Nat}
    {items : List LineItem}
    (hs : (s.products.map (·.id)).Nodup)
    (hd : (items.map (·.productId)).Nodup)
    (hr : ∀ i ∈ items.map (·.productId),
      ∃ p ∈ s.products, p.id = i ∧ p.deletedAt = none)
    (hx : ∃ it ∈ items, ∃ p,
      (findProducts s (items.map (·.productId))).find?
        (fun q => q.id == it.productId) = some p ∧ p.stock < (it.quantity : Int)) :
    ∃ it0 p0,
      firstStockViolation (findProducts s (items.map (·.productId))) items
        = some (it0, p0) ∧
      (createOrder s uid items).2 = .error (stockError p0.name) ∧
      (createOrder s uid items).1 = s := by
  have hlen := findProducts_length_eq s (items.map (·.productId)) hs hd hr
  rw [List.length_map] at hlen
  cases hfv : firstStockViolation (findProducts s (items.map (·.productId)))
      items with
  | none =>
    exfalso
    unfold firstStockViolation at hfv
    rw [List.findSome?_eq_none_iff] at hfv
    obtain ⟨it, hit, p, hp, hstock⟩ := hx
    have h0 := hfv it hit
    rw [hp] at h0
    have h1 : (if p.stock < (it.quantity : Int) then some (it, p) else none)
        = none := h0
    rw [if_pos hstock] at h1
    exact Option.noConfusion h1
  | some pr =>
    obtain ⟨it0, p0⟩ := pr
    have hval := createOrderValidate_eq_stockError hlen hfv
    refine ⟨it0, p0, rfl, ?_, ?_⟩
    · unfold createOrder
      rw [@runCreateOrderAt_validate_error s s uid items _ hval]
    · unfold createOrder
      rw [@runCreateOrderAt_validate_error s s uid items _ hval]

/-- Witness for the amended C6: one line asking 9 units of product 1 (live,
stock 5) is rejected with the insufficient-stock error naming "A". -/
theorem createOrder_insufficient_stock_witness :
    (createOrder demoStore 7 [⟨1, 9⟩]).2 = .error (stockError "A") := by
  obtain ⟨it0, p0, hfv, hres, hst⟩ :=
    @createOrder_insufficient_stock demoStore 7 [⟨1, 9⟩] (by decide) (by decide)
      (by decide) ⟨⟨1, 9⟩, by decide, ⟨1, "A", 600, 5, none⟩, rfl, by decide⟩
  have hcalc : firstStockViolation
      (findProducts demoStore (([⟨1, 9⟩] : List LineItem).map (·.productId)))
      [⟨1, 9⟩] = some (⟨1, 9⟩, ⟨1, "A", 600, 5, none⟩) := rfl
  rw [hcalc] at hfv
  injection hfv with h1
  have hp0 : p0 = ⟨1, "A", 600, 5, none⟩ := (congrArg Prod.snd h1).symm
  rw [hp0] at hres
  exact hres

/-! ## The transaction result does not depend on live prices or stocks -/

/-- Two stores that agree on everything the transaction body reads except
the product rows' prices and stocks: same product ids (in order), same
users, orders and sequences. -/
def StoreAgree (s t : Store) : Prop :=
  s.products.map (·.id) = t.products.map (·.id) ∧
  s.users = t.users ∧ s.orders = t.orders ∧
  s.nextOrderId = t.nextOrderId ∧ s.nextItemId = t.nextItemId ∧ s.now = t.now

/-- Overwriting one product's live price preserves store agreement. -/
theorem setPrice_storeAgree (s : Store) (pid : Nat) (v : Nat) :
    StoreAgree s (setPrice s pid v) := by
  refine ⟨?_, rfl, rfl, rfl, rfl, rfl⟩
  unfold setPrice
  rw [List.map_map]
  congr 1
  funext p
  by_cases hp : p.id = pid <;> simp [hp]

/-- Membership of an id among the product rows, read off the id list. -/
theorem any_on_ids (l : List Product) (pid : Nat) :
    l.any (fun p => p.id == pid) = (l.map (·.id)).any (fun i => i == pid) := by
  induction l with
  | nil => rfl
  | cons a t ih => simp [ih]

/-- A membership test on product ids is determined by the id list. -/
theorem any_id_eq_of_agree {l l' : List Product} (pid : Nat)
    (h : l.map (·.id) = l'.map (·.id)) :
    l.any (fun p => p.id == pid) = l'.any (fun p => p.id == pid) := by
  rw [any_on_ids, any_on_ids, h]

/-- The conditional stock update preserves the id list. -/
theorem stockUpdate_map_id (l : List Product) (pid : Nat) (q : Nat) :
    (l.map (fun p => if p.id == pid then { p with stock := p.stock - (q : Int) }
      else p)).map (·.id) = l.map (·.id) := by
  rw [List.map_map]
  congr 1
  funext p
  by_cases hp : p.id = pid <;> simp [hp]

/-- `decrementStock` behaves identically on agreeing stores: same error, or
agreeing outputs. -/
theorem decrementStock_congr {s t : Store} {pid q : Nat} (h : StoreAgree s t) :
    (∀ e, decrementStock s pid q = .error e → decrementStock t pid q = .error e) ∧
    (∀ s', decrementStock s pid q = .ok s' →
      ∃ t', decrementStock t pid q = .ok t' ∧ StoreAgree s' t') := by
  obtain ⟨hid, hu, ho, hno, hni, hnow⟩ := h
  have hany := any_id_eq_of_agree pid hid
  constructor
  · intro e he
    unfold decrementStock at he ⊢
    rw [← hany]
    split at he
    · exact Except.noConfusion he
    next hc =>
      rw [if_neg hc]
      exact he
  · intro s' hs'
    unfold decrementStock at hs' ⊢
    rw [← hany]
    split at hs'
    next hc =>
      rw [if_pos hc]
      refine ⟨_, rfl, ?_⟩
      injection hs' with hs'
      subst hs'
      refine ⟨?_, hu, ho, hno, hni, hnow⟩
      rw [stockUpdate_map_id, stockUpdate_map_id]
      exact hid
    · exact Except.noConfusion hs'


/-- One transactional line behaves identically on agreeing stores: the same
error, or the very same created item with agreeing output stores. -/
theorem createOrderLine_congr {products : List Product} {oid : Nat}
    {s t : Store} {it : LineItem} (h : StoreAgree s t) :
    (∀ e, createOrderLine products oid s it = .error e →
      createOrderLine products oid t it = .error e) ∧
    (∀ s' item, createOrderLine products oid s it = .ok (s', item) →
      ∃ t', createOrderLine products oid t it = .ok (t', item) ∧ StoreAgree s' t') := by
  constructor
  · intro e he
    unfold createOrderLine at he ⊢
    split at he
    · exact he
    next product hf =>
      split at he
      next e' hds =>
        rw [(decrementStock_congr h).1 e' hds]
        exact he
      next st1 hds =>
        exact Except.noConfusion he
  · intro s' item hs'
    unfold createOrderLine at hs' ⊢
    split at hs'
    · exact Except.noConfusion hs'
    next product hf =>
      split at hs'
      next e' hds =>
        exact Except.noConfusion hs'
      next st1 hds =>
        obtain ⟨t1, ht1, hag⟩ := (decrementStock_congr h).2 st1 hds
        obtain ⟨hid1, hu1, ho1, hno1, hni1, hnow1⟩ := hag
        simp only [Except.ok.injEq, Prod.mk.injEq] at hs'
        obtain ⟨h1, h2⟩ := hs'
        subst h1
        rw [ht1]
        refine ⟨{ t1 with
            orderItems := t1.orderItems ++
              [{ id := t1.nextItemId, orderId := oid, productId := product.id,
                 quantity := it.quantity, unitPrice := product.price,
                 totalPrice := product.price * it.quantity }],
            nextItemId := t1.nextItemId + 1 }, ?_, ?_⟩
        · rw [← h2, hni1]
        · refine ⟨hid1, hu1, ho1, hno1, ?_, hnow1⟩
          rw [show st1.nextItemId = t1.nextItemId from hni1]

/-- The whole per-line loop behaves identically on agreeing stores. -/
theorem createOrderLines_congr {products : List Product} {oid : Nat} :
    ∀ {s t : Store} {items : List LineItem}, StoreAgree s t →
    (∀ e, createOrderLines products oid s items = .error e →
      createOrderLines products oid t items = .error e) ∧
    (∀ s' is, createOrderLines products oid s items = .ok (s', is) →
      ∃ t', createOrderLines products oid t items = .ok (t', is) ∧
        StoreAgree s' t') := by
  intro s t items
  induction items generalizing s t with
  | nil =>
    intro h
    refine ⟨fun e he => Except.noConfusion he, fun s' is hs' => ?_⟩
    unfold createOrderLines at hs' ⊢
    simp only [Except.ok.injEq, Prod.mk.injEq] at hs'
    obtain ⟨h1, h2⟩ := hs'
    subst h1
    subst h2
    exact ⟨t, rfl, h⟩
  | cons it rest ih =>
    intro h
    constructor
    · intro e he
      unfold createOrderLines at he ⊢
      split at he
      next e' hline =>
        rw [(createOrderLine_congr h).1 e' hline]
        exact he
      next s1 item hline =>
        obtain ⟨t1, ht1, hag1⟩ := (createOrderLine_congr h).2 s1 item hline
        rw [ht1]
        show (match createOrderLines products oid t1 rest with
          | Except.error e => Except.error e
          | Except.ok (st2, itemsRest) => Except.ok (st2, item :: itemsRest))
          = Except.error e
        split at he
        next e' hrest =>
          rw [(ih hag1).1 e' hrest]
          exact he
        next s2 is2 hrest =>
          exact Except.noConfusion he
    · intro s' is hs'
      unfold createOrderLines at hs' ⊢
      split at hs'
      next e' hline =>
        exact Except.noConfusion hs'
      next s1 item hline =>
        obtain ⟨t1, ht1, hag1⟩ := (createOrderLine_congr h).2 s1 item hline
        rw [ht1]
        show ∃ t', (match createOrderLines products oid t1 rest with
          | Except.error e => Except.error e
          | Except.ok (st2, itemsRest) => Except.ok (st2, item :: itemsRest))
          = Except.ok (t', is) ∧ StoreAgree s' t'
        split at hs'
        next e' hrest =>
          exact Except.noConfusion hs'
        next s2 is2 hrest =>
          obtain ⟨t2, ht2, hag2⟩ := (ih hag1).2 s2 is2 hrest
          rw [ht2]
          simp only [Except.ok.injEq, Prod.mk.injEq] at hs'
          obtain ⟨h1, h2⟩ := hs'
          subst h1
          subst h2
          exact ⟨t2, rfl, hag2⟩

/-- The order-total update behaves identically on agreeing stores. -/
theorem incrementOrderTotal_congr {s t : Store} {oid inc : Nat}
    (h : StoreAgree s t) :
    (∀ e, incrementOrderTotal s oid inc = .error e →
      incrementOrderTotal t oid inc = .error e) ∧
    (∀ s' o, incrementOrderTotal s oid inc = .ok (s', o) →
      ∃ t', incrementOrderTotal t oid inc = .ok (t', o) ∧ StoreAgree s' t') := by
  obtain ⟨hid, hu, ho, hno, hni, hnow⟩ := h
  constructor
  · intro e he
    unfold incrementOrderTotal at he ⊢
    rw [← ho]
    split at he
    next heq =>
      exact he
    next o heq =>
      exact Except.noConfusion he
  · intro s' o hs'
    unfold incrementOrderTotal at hs' ⊢
    rw [← ho]
    split at hs'
    next heq =>
      exact Except.noConfusion hs'
    next o0 heq =>
      simp only [Except.ok.injEq, Prod.mk.injEq] at hs'
      obtain ⟨h1, h2⟩ := hs'
      subst h1
      subst h2
      refine ⟨_, rfl, hid, hu, ?_, hno, hni, hnow⟩
      rw [ho]

/-- The point update behaves identically on agreeing stores. -/
theorem updateUserPoint_congr {s t : Store} {uid : Nat} {d : Int}
    (h : StoreAgree s t) :
    (∀ e, updateUserPoint s uid d = .error e →
      updateUserPoint t uid d = .error e) ∧
    (∀ s' u, updateUserPoint s uid d = .ok (s', u) →
      ∃ t', updateUserPoint t uid d = .ok (t', u) ∧ StoreAgree s' t') := by
  obtain ⟨hid, hu, ho, hno, hni, hnow⟩ := h
  constructor
  · intro e he
    unfold updateUserPoint at he ⊢
    rw [← hu]
    split at he
    next heq =>
      exact he
    next u0 heq =>
      exact Except.noConfusion he
  · intro s' u hs'
    unfold updateUserPoint at hs' ⊢
    rw [← hu]
    split at hs'
    next heq =>
      exact Except.noConfusion hs'
    next u0 heq =>
      simp only [Except.ok.injEq, Prod.mk.injEq] at hs'
      obtain ⟨h1, h2⟩ := hs'
      subst h1
      subst h2
      refine ⟨_, rfl, hid, ?_, ho, hno, hni, hnow⟩
      rw [hu]

/-- Stage equation: a failing per-line loop fails the transaction body. -/
theorem createOrderTx_eq_lines_error {products : List Product}
    {items : List LineItem} {uid : Nat} {st : Store} {e : AppError}
    (hlines : createOrderLines products st.nextOrderId
      { st with
          orders := st.orders ++ [⟨st.nextOrderId, uid, 0, st.now⟩],
          nextOrderId := st.nextOrderId + 1 } items = .error e) :
    createOrderTx products items uid st = .error e := by
  unfold createOrderTx
  simp only [hlines]

/-- Stage equation: a failing order-total update fails the transaction body. -/
theorem createOrderTx_eq_inc_error {products : List Product}
    {items : List LineItem} {uid : Nat} {st st2 : Store} {is : List OrderItem}
    {e : AppError}
    (hlines : createOrderLines products st.nextOrderId
      { st with
          orders := st.orders ++ [⟨st.nextOrderId, uid, 0, st.now⟩],
          nextOrderId := st.nextOrderId + 1 } items = .ok (st2, is))
    (hinc : incrementOrderTotal st2 st.nextOrderId
      (is.foldl (fun acc item => acc + item.totalPrice) 0) = .error e) :
    createOrderTx products items uid st = .error e := by
  unfold createOrderTx
  simp only [hlines, hinc]

/-- Stage equation: a failing point update fails the transaction body. -/
theorem createOrderTx_eq_upd_error {products : List Product}
    {items : List LineItem} {uid : Nat} {st st2 st3 : Store}
    {is : List OrderItem} {nOrd : Order} {e : AppError}
    (hlines : createOrderLines products st.nextOrderId
      { st with
          orders := st.orders ++ [⟨st.nextOrderId, uid, 0, st.now⟩],
          nextOrderId := st.nextOrderId + 1 } items = .ok (st2, is))
    (hinc : incrementOrderTotal st2 st.nextOrderId
      (is.foldl (fun acc item => acc + item.totalPrice) 0) = .ok (st3, nOrd))
    (hupd : updateUserPoint st3 uid
      ((is.foldl (fun acc item => acc + item.totalPrice) 0 / 1000 : Nat) : Int)
      = .error e) :
    createOrderTx products items uid st = .error e := by
  unfold createOrderTx
  simp only [hlines, hinc, hupd]

/-- Stage equation: the committed transaction body out of its three
successful stages. -/
theorem createOrderTx_eq_ok {products : List Product}
    {items : List LineItem} {uid : Nat} {st st2 st3 st4 : Store}
    {is : List OrderItem} {nOrd : Order} {u4 : User}
    (hlines : createOrderLines products st.nextOrderId
      { st with
          orders := st.orders ++ [⟨st.nextOrderId, uid, 0, st.now⟩],
          nextOrderId := st.nextOrderId + 1 } items = .ok (st2, is))
    (hinc : incrementOrderTotal st2 st.nextOrderId
      (is.foldl (fun acc item => acc + item.totalPrice) 0) = .ok (st3, nOrd))
    (hupd : updateUserPoint st3 uid
      ((is.foldl (fun acc item => acc + item.totalPrice) 0 / 1000 : Nat) : Int)
      = .ok (st4, u4)) :
    createOrderTx products items uid st = .ok (st4,
      { order := nOrd,
        points := is.foldl (fun acc item => acc + item.totalPrice) 0 / 1000,
        items := is }) := by
  unfold createOrderTx
  simp only [hlines, hinc, hupd]

/-- The whole transaction body behaves identically on agreeing stores: the
same error, or the very same result (order header, points and items). -/
theorem createOrderTx_congr {products : List Product} {items : List LineItem}
    {uid : Nat} {s t : Store} (h : StoreAgree s t) :
    (∀ e, createOrderTx products items uid s = .error e →
      createOrderTx products items uid t = .error e) ∧
    (∀ s' r, createOrderTx products items uid s = .ok (s', r) →
      ∃ t', createOrderTx products items uid t = .ok (t', r)) := by
  obtain ⟨hid, hu, ho, hno, hni, hnow⟩ := h
  have hag1 : StoreAgree
      { s with
          orders := s.orders ++ [⟨s.nextOrderId, uid, 0, s.now⟩],
          nextOrderId := s.nextOrderId + 1 }
      { t with
          orders := t.orders ++ [⟨t.nextOrderId, uid, 0, t.now⟩],
          nextOrderId := t.nextOrderId + 1 } := by
    refine ⟨hid, hu, ?_, ?_, hni, hnow⟩
    · rw [ho, hno, hnow]
    · rw [hno]
  constructor
  · intro e he
    unfold createOrderTx at he
    simp only [] at he
    split at he
    next e' hlines =>
      injection he with he
      subst he
      have ht := (createOrderLines_congr hag1).1 e' hlines
      rw [hno] at ht
      exact createOrderTx_eq_lines_error ht
    next st2 is hlines =>
      split at he
      next e' hinc =>
        injection he with he
        subst he
        obtain ⟨t2, ht2, hag2⟩ := (createOrderLines_congr hag1).2 st2 is hlines
        rw [hno] at ht2
        have hti := (incrementOrderTotal_congr hag2).1 e' hinc
        rw [hno] at hti
        exact createOrderTx_eq_inc_error ht2 hti
      next st3 nOrd hinc =>
        split at he
        next e' hupd =>
          injection he with he
          subst he
          obtain ⟨t2, ht2, hag2⟩ := (createOrderLines_congr hag1).2 st2 is hlines
          rw [hno] at ht2
          obtain ⟨t3, ht3, hag3⟩ := (incrementOrderTotal_congr hag2).2 st3 nOrd hinc
          rw [hno] at ht3
          have htu := (updateUserPoint_congr hag3).1 e' hupd
          exact createOrderTx_eq_upd_error ht2 ht3 htu
        next st4 u4 hupd =>
          exact Except.noConfusion he
  · intro s' r hs'
    unfold createOrderTx at hs'
    simp only [] at hs'
    split at hs'
    next e' hlines =>
      exact Except.noConfusion hs'
    next st2 is hlines =>
      split at hs'
      next e' hinc =>
        exact Except.noConfusion hs'
      next st3 nOrd hinc =>
        split at hs'
        next e' hupd =>
          exact Except.noConfusion hs'
        next st4 u4 hupd =>
          simp only [Except.ok.injEq, Prod.mk.injEq] at hs'
          obtain ⟨h1, h2⟩ := hs'
          obtain ⟨t2, ht2, hag2⟩ := (createOrderLines_congr hag1).2 st2 is hlines
          rw [hno] at ht2
          obtain ⟨t3, ht3, hag3⟩ := (incrementOrderTotal_congr hag2).2 st3 nOrd hinc
          rw [hno] at ht3
          obtain ⟨t4, ht4, hag4⟩ := (updateUserPoint_congr hag3).2 st4 u4 hupd
          refine ⟨t4, ?_⟩
          rw [createOrderTx_eq_ok ht2 ht3 ht4, ← h2]

/-- Inversion: the snapshot a successful validation returns is exactly the
resolved product list. -/
theorem createOrderValidate_ok_inv {s : Store} {items : List LineItem}
    {ps : List Product}
    (h : createOrderValidate s items = .ok ps) :
    ps = findProducts s (items.map (·.productId)) := by
  unfold createOrderValidate at h
  simp only [] at h
  split at h
  · exact Except.noConfusion h
  · split at h
    · exact Except.noConfusion h
    · injection h with h
      exact h.symm

/-- Inversion: the items of a successful transaction body are the items its
per-line loop created. -/
theorem createOrderTx_ok_lines {products : List Product} {items : List LineItem}
    {uid : Nat} {st st' : Store} {r : OrderResult}
    (h : createOrderTx products items uid st = .ok (st', r)) :
    ∃ st2, createOrderLines products st.nextOrderId
      { st with
          orders := st.orders ++ [⟨st.nextOrderId, uid, 0, st.now⟩],
          nextOrderId := st.nextOrderId + 1 } items = .ok (st2, r.items) := by
  unfold createOrderTx at h
  simp only [] at h
  split at h
  · exact Except.noConfusion h
  next st2 is hlines =>
    split at h
    · exact Except.noConfusion h
    next st3 nOrd hinc =>
      split at h
      · exact Except.noConfusion h
      next st4 u4 hupd =>
        simp only [Except.ok.injEq, Prod.mk.injEq] at h
        obtain ⟨h1, h2⟩ := h
        subst h2
        exact ⟨st2, hlines⟩

/-- The response of a full request is unchanged when one live product price
is overwritten between validation and transaction entry. -/
theorem runCreateOrderAt_setPrice_resp {sv st : Store} {uid : Nat}
    {items : List LineItem} (pid : Nat) (v : Nat) :
    (runCreateOrderAt sv (setPrice st pid v) uid items).2
      = (runCreateOrderAt sv st uid items).2 := by
  cases hv : createOrderValidate sv items with
  | error e =>
    rw [@runCreateOrderAt_validate_error sv (setPrice st pid v) uid items e hv,
      @runCreateOrderAt_validate_error sv st uid items e hv]
  | ok products =>
    cases htx : createOrderTx products items uid st with
    | ok p =>
      obtain ⟨st', r⟩ := p
      obtain ⟨t', ht'⟩ := (createOrderTx_congr (setPrice_storeAgree st pid v)).2 st' r htx
      rw [@runCreateOrderAt_tx_ok sv (setPrice st pid v) t' uid items products r hv ht',
        @runCreateOrderAt_tx_ok sv st st' uid items products r hv htx]
    | error e =>
      have ht := (createOrderTx_congr (setPrice_storeAgree st pid v)).1 e htx
      rw [@runCreateOrderAt_tx_error sv (setPrice st pid v) uid items products e hv ht,
        @runCreateOrderAt_tx_error sv st uid items products e hv htx]

/-- C7: every `OrderItem` a successful `createOrder` creates records a
`unitPrice` equal to the resolved product's price as read at validation
time, with line total `price * quantity`; and the response is entirely
unaffected by any change to a live product price made after that read (the
price is never re-derived from the live row). -/
theorem createOrder_unitPrice_snapshot {sv st : Store} {uid : Nat}
    {items : List LineItem} {r : OrderResult}
    (h : (runCreateOrderAt sv st uid items).2 = .ok r) :
    (∀ item ∈ r.items, ∃ p,
      (findProducts sv (items.map (·.productId))).find?
        (fun q => q.id == item.productId) = some p ∧
      item.unitPrice = p.price ∧ item.totalPrice = p.price * item.quantity) ∧
    (∀ pid v, (runCreateOrderAt sv (setPrice st pid v) uid items).2
      = (runCreateOrderAt sv st uid items).2) := by
  constructor
  · obtain ⟨products, hv, htx⟩ := runCreateOrderAt_ok_inv h
    have hps := createOrderValidate_ok_inv hv
    subst hps
    obtain ⟨st2, hlines⟩ := createOrderTx_ok_lines htx
    obtain ⟨hu2, ho2, hi2, hno2, hnow2, hitems⟩ := createOrderLines_ok hlines
    intro item him
    obtain ⟨p, hp, hoid, hup, htp⟩ := hitems item him
    exact ⟨p, hp, hup, by rw [htp, hup]⟩
  · intro pid v
    exact runCreateOrderAt_setPrice_resp pid v

/-- Witness for C7: bumping product 1's live price to 999 after validation
does not change the response of the end-to-end scenario (the item keeps
unit price 600). -/
theorem createOrder_unitPrice_snapshot_witness :
    (runCreateOrderAt demoStore (setPrice demoStore 1 999) 7 [⟨1, 2⟩, ⟨2, 1⟩]).2
      = (runCreateOrderAt demoStore demoStore 7 [⟨1, 2⟩, ⟨2, 1⟩]).2 :=
  (@createOrder_unitPrice_snapshot demoStore demoStore 7 [⟨1, 2⟩, ⟨2, 1⟩]
    ⟨⟨10, 7, 2700, 100⟩, 2, [⟨20, 10, 1, 2, 600, 1200⟩, ⟨21, 10, 2, 1, 1500, 1500⟩]⟩
    rfl).2 1 999

/-! ## `transferPoint` characterisation -/

/-- Equation for a transfer on which every guard passes and both row
updates commit: the response carries both updated rows and the visible
store is the second update's output. -/
theorem transferPoint_eq_ok {s s1 s2 : Store} {senderId : Nat}
    {body : TransferBody} {sender receiver us ur : User}
    (hpos : ¬ body.amount ≤ 0)
    (hsender : findUser s senderId = some sender)
    (hreceiver : findUser s body.receiverId = some receiver)
    (hself : (sender.id == receiver.id) = false)
    (hbal : ¬ sender.point < body.amount)
    (hupd1 : updateUserPoint s sender.id (-body.amount) = .ok (s1, us))
    (hupd2 : updateUserPoint s1 body.receiverId body.amount = .ok (s2, ur)) :
    transferPoint s senderId body = (s2, .ok ⟨userView us, userView ur⟩) := by
  unfold transferPoint
  rw [if_neg hpos]
  simp only [hsender, hreceiver, hself, Bool.false_eq_true, if_false,
    if_neg hbal, hupd1, hupd2]

/-- Inversion of a successful transfer: all guards passed and both row
updates committed, the second on the store the first produced; the visible
store is the second update's output. -/
theorem transferPoint_ok_inv {s : Store} {senderId : Nat} {body : TransferBody}
    {r : TransferResult}
    (h : (transferPoint s senderId body).2 = .ok r) :
    ∃ sender receiver s1 us s2 ur,
      ¬ body.amount ≤ 0 ∧
      findUser s senderId = some sender ∧
      findUser s body.receiverId = some receiver ∧
      (sender.id == receiver.id) = false ∧
      ¬ sender.point < body.amount ∧
      updateUserPoint s sender.id (-body.amount) = .ok (s1, us) ∧
      updateUserPoint s1 body.receiverId body.amount = .ok (s2, ur) ∧
      r = ⟨userView us, userView ur⟩ ∧
      (transferPoint s senderId body).1 = s2 := by
  have hmain := h
  unfold transferPoint at hmain
  split at hmain
  next hneg =>
    exact absurd hmain (by simp)
  next hpos =>
    split at hmain
    next sender receiver hsender hreceiver =>
      split at hmain
      next hself =>
        exact absurd hmain (by simp)
      next hself =>
        split at hmain
        next hbal =>
          exact absurd hmain (by simp)
        next hbal =>
          have hselfF : (sender.id == receiver.id) = false := by
            simpa using hself
          cases hupd1 : updateUserPoint s sender.id (-body.amount) with
          | error e =>
            rw [hupd1] at hmain
            exact absurd hmain (by simp)
          | ok p1 =>
            obtain ⟨s1, us⟩ := p1
            rw [hupd1] at hmain
            have h2 : (match updateUserPoint s1 body.receiverId body.amount with
              | Except.error e => (s, Except.error e)
              | Except.ok (s2, updatedReceiver) =>
                (s2, Except.ok (TransferResult.mk (userView us)
                  (userView updatedReceiver)))).2 = Except.ok r := hmain
            cases hupd2 : updateUserPoint s1 body.receiverId body.amount with
            | error e =>
              rw [hupd2] at h2
              exact absurd h2 (by simp)
            | ok p2 =>
              obtain ⟨s2, ur⟩ := p2
              rw [hupd2] at h2
              simp only at h2
              have heq := transferPoint_eq_ok hpos hsender hreceiver hselfF hbal
                hupd1 hupd2
              refine ⟨sender, receiver, s1, us, s2, ur, hpos, hsender, hreceiver,
                hselfF, hbal, hupd1, hupd2, by simpa using h2.symm, ?_⟩
              rw [heq]
    next hnf =>
      exact absurd hmain (by simp)


/-- Characterisation of a successful point transfer: the guards all passed
(positive amount, both parties found, no self transfer, sufficient
balance), the response carries both updated rows, and in the resulting
store the sender's balance dropped and the receiver's rose by exactly the
amount. -/
theorem transferPoint_ok_spec {s : Store} {senderId : Nat} {body : TransferBody}
    {r : TransferResult}
    (h : (transferPoint s senderId body).2 = .ok r) :
    0 < body.amount ∧ senderId ≠ body.receiverId ∧
    ∃ sender receiver,
      findUser s senderId = some sender ∧
      findUser s body.receiverId = some receiver ∧
      body.amount ≤ sender.point ∧
      r.sender = ⟨sender.id, sender.email, sender.point - body.amount⟩ ∧
      r.receiver = ⟨receiver.id, receiver.email, receiver.point + body.amount⟩ ∧
      findUser (transferPoint s senderId body).1 senderId
        = some { sender with point := sender.point - body.amount } ∧
      findUser (transferPoint s senderId body).1 body.receiverId
        = some { receiver with point := receiver.point + body.amount } := by
  obtain ⟨sender, receiver, s1, us, s2, ur, hpos, hsender, hreceiver, hselfF,
    hbal, hupd1, hupd2, hr, hst⟩ := transferPoint_ok_inv h
  unfold findUser at hsender hreceiver
  have hsid : sender.id = senderId := by
    have h0 := List.find?_some (p := fun (v : User) => v.id == senderId) hsender
    simpa using h0
  have hrid : receiver.id = body.receiverId := by
    have h0 := List.find?_some (p := fun (v : User) => v.id == body.receiverId) hreceiver
    simpa using h0
  have hne : sender.id ≠ receiver.id := by
    simpa using hselfF
  obtain ⟨hu1, hp1, ho1, hi1, hno1, hni1, hnow1, u, hufind, hueq⟩ :=
    updateUserPoint_ok hupd1
  rw [hsid] at hufind
  rw [hufind] at hsender
  have hus : u = sender := by injection hsender
  rw [hus] at hueq hufind
  obtain ⟨hu2, hp2, ho2, hi2, hno2, hni2, hnow2, u', hufind2, hueq2⟩ :=
    updateUserPoint_ok hupd2
  have hpres1 : ∀ x : User,
      (fun v => v.id == body.receiverId)
        ((fun x => if x.id == sender.id then
            { x with point := x.point + (-body.amount) } else x) x) =
      (fun v => v.id == body.receiverId) x := by
    intro x
    by_cases hx : x.id = sender.id <;> simp [hx]
  have hrne : (receiver.id == sender.id) = false := by
    simp only [beq_eq_false_iff_ne, ne_eq]
    exact fun hc => hne hc.symm
  have hfind1r : s1.users.find? (fun x => x.id == body.receiverId)
      = some receiver := by
    rw [hu1, find?_map_comm _ _ hpres1, hreceiver, Option.map_some', hrne]
    simp only [Bool.false_eq_true, if_false]
  have hur : u' = receiver := by
    rw [hfind1r] at hufind2
    injection hufind2 with hh
    exact hh.symm
  rw [hur] at hueq2
  have hsub : sender.point + (-body.amount) = sender.point - body.amount := by
    omega
  have hpres2 : ∀ (k : Nat) (x : User),
      (fun v => v.id == k)
        ((fun x => if x.id == body.receiverId then
            { x with point := x.point + body.amount } else x) x) =
      (fun v => v.id == k) x := by
    intro k x
    by_cases hx : x.id = body.receiverId <;> simp [hx]
  refine ⟨by omega, by rw [← hsid, ← hrid]; exact hne, sender, receiver,
    hufind, hreceiver, by omega, ?_, ?_, ?_, ?_⟩
  · rw [hr, hueq]
    rfl
  · rw [hr, hueq2]
    rfl
  · rw [hst]
    unfold findUser
    rw [hu2, find?_map_comm _ _ (hpres2 senderId), hu1,
      find?_map_comm _ _ (by
        intro x
        by_cases hx : x.id = sender.id <;> simp [hx]), hufind]
    simp only [Option.map_some']
    rw [show (sender.id == sender.id) = true from by simp]
    simp only [if_true]
    have hsne : (sender.id == body.receiverId) = false := by
      simp only [beq_eq_false_iff_ne, ne_eq]
      rw [hrid] at hne
      exact hne
    rw [hsne]
    simp only [Bool.false_eq_true, if_false, Option.some.injEq]
    rw [hsub]
  · rw [hst]
    unfold findUser
    rw [hu2, find?_map_comm _ _ (hpres2 body.receiverId), hfind1r]
    simp only [Option.map_some']
    rw [show (receiver.id == body.receiverId) = true from by simp [hrid]]
    simp only [if_true]

/-- Every rejected transfer leaves the store unchanged (all guards run
before any write, and the two updates either both commit or none). -/
theorem transferPoint_error_store {s : Store} {senderId : Nat}
    {body : TransferBody} {e : AppError}
    (h : (transferPoint s senderId body).2 = .error e) :
    (transferPoint s senderId body).1 = s := by
  unfold transferPoint at h ⊢
  split at h
  next hneg =>
    rw [if_pos hneg]
  next hpos =>
    rw [if_neg hpos]
    split at h
    next sender receiver hsender hreceiver =>
      split at h
      next hself =>
        rw [if_pos hself]
      next hself =>
        rw [if_neg hself]
        split at h
        next hbal =>
          rw [if_pos hbal]
        next hbal =>
          rw [if_neg hbal]
          cases hupd1 : updateUserPoint s sender.id (-body.amount) with
          | error e1 =>
            rfl
          | ok p1 =>
            obtain ⟨s1, us⟩ := p1
            rw [hupd1] at h
            have h2 : (match updateUserPoint s1 body.receiverId body.amount with
              | Except.error e => (s, Except.error e)
              | Except.ok (s2, updatedReceiver) =>
                (s2, Except.ok (TransferResult.mk (userView us)
                  (userView updatedReceiver)))).2 = Except.error e := h
            show (match updateUserPoint s1 body.receiverId body.amount with
              | Except.error e => (s, Except.error e)
              | Except.ok (s2, updatedReceiver) =>
                (s2, Except.ok (TransferResult.mk (userView us)
                  (userView updatedReceiver)))).1 = s
            cases hupd2 : updateUserPoint s1 body.receiverId body.amount with
            | error e2 =>
              rfl
            | ok p2 =>
              obtain ⟨s2, ur⟩ := p2
              rw [hupd2] at h2
              exact absurd h2 (by simp)
    · rfl

/-- C8: `transferPoint` succeeds only when the amount is positive, the
sender and receiver are distinct existing users, and the sender's balance
covers the amount; on success it debits the sender and credits the receiver
by exactly the amount in one transaction and returns both updated balances;
every rejected transfer (self transfer and over-balance transfer included)
leaves the store — hence both balances — unchanged. -/
theorem transferPoint_guarded (s : Store) (senderId : Nat) (body : TransferBody) :
    (∀ r, (transferPoint s senderId body).2 = .ok r →
      0 < body.amount ∧ senderId ≠ body.receiverId ∧
      ∃ sender receiver,
        findUser s senderId = some sender ∧
        findUser s body.receiverId = some receiver ∧
        body.amount ≤ sender.point ∧
        r.sender = ⟨sender.id, sender.email, sender.point - body.amount⟩ ∧
        r.receiver = ⟨receiver.id, receiver.email, receiver.point + body.amount⟩ ∧
        findUser (transferPoint s senderId body).1 senderId
          = some { sender with point := sender.point - body.amount } ∧
        findUser (transferPoint s senderId body).1 body.receiverId
          = some { receiver with point := receiver.point + body.amount }) ∧
    (∀ e, (transferPoint s senderId body).2 = .error e →
      (transferPoint s senderId body).1 = s) :=
  ⟨fun _ h => transferPoint_ok_spec h, fun _ h => transferPoint_error_store h⟩

/-- Witness for C8: user 7 (10 points) sends 4 points to user 8 (3 points);
the transfer succeeds and both stored balances move by exactly 4. -/
theorem transferPoint_guarded_witness :
    (0 : Int) < 4 ∧ (7 : Nat) ≠ 8 ∧
    ∃ sender receiver,
      findUser transferStore 7 = some sender ∧
      findUser transferStore 8 = some receiver ∧
      (4 : Int) ≤ sender.point ∧
      (TransferResult.mk ⟨7, "alice", 6⟩ ⟨8, "bob", 7⟩).sender
        = ⟨sender.id, sender.email, sender.point - 4⟩ ∧
      (TransferResult.mk ⟨7, "alice", 6⟩ ⟨8, "bob", 7⟩).receiver
        = ⟨receiver.id, receiver.email, receiver.point + 4⟩ ∧
      findUser (transferPoint transferStore 7 ⟨8, 4⟩).1 7
        = some { sender with point := sender.point - 4 } ∧
      findUser (transferPoint transferStore 7 ⟨8, 4⟩).1 8
        = some { receiver with point := receiver.point + 4 } :=
  (transferPoint_guarded transferStore 7 ⟨8, 4⟩).1
    ⟨⟨7, "alice", 6⟩, ⟨8, "bob", 7⟩⟩ rfl

/-- C9: every successful transfer conserves points: the sender loses and
the receiver gains exactly the amount, so the sum of the two returned
balances equals the sum of the two prior balances, and the balance-covers-
amount guard keeps the sender's new balance non-negative. -/
theorem transferPoint_conservation {s : Store} {senderId : Nat}
    {body : TransferBody} {r : TransferResult}
    (h : (transferPoint s senderId body).2 = .ok r) :
    ∃ sender receiver,
      findUser s senderId = some sender ∧
      findUser s body.receiverId = some receiver ∧
      r.sender.point = sender.point - body.amount ∧
      r.receiver.point = receiver.point + body.amount ∧
      r.sender.point + r.receiver.point = sender.point + receiver.point ∧
      0 ≤ r.sender.point := by
  obtain ⟨hpos, hne, sender, receiver, hs, hr, hbal, hrs, hrr, hfs, hfr⟩ :=
    transferPoint_ok_spec h
  refine ⟨sender, receiver, hs, hr, ?_, ?_, ?_, ?_⟩
  · rw [hrs]
  · rw [hrr]
  · rw [hrs, hrr]
    show sender.point - body.amount + (receiver.point + body.amount)
      = sender.point + receiver.point
    omega
  · rw [hrs]
    show (0 : Int) ≤ sender.point - body.amount
    omega

/-- Witness for C9: in the 10/3 scenario the returned balances 6 and 7
still sum to 13 and the sender stays non-negative. -/
theorem transferPoint_conservation_witness :
    ∃ sender receiver,
      findUser transferStore 7 = some sender ∧
      findUser transferStore 8 = some receiver ∧
      (TransferResult.mk ⟨7, "alice", 6⟩ ⟨8, "bob", 7⟩).sender.point
        = sender.point - 4 ∧
      (TransferResult.mk ⟨7, "alice", 6⟩ ⟨8, "bob", 7⟩).receiver.point
        = receiver.point + 4 ∧
      (TransferResult.mk ⟨7, "alice", 6⟩ ⟨8, "bob", 7⟩).sender.point
          + (TransferResult.mk ⟨7, "alice", 6⟩ ⟨8, "bob", 7⟩).receiver.point
        = sender.point + receiver.point ∧
      (0 : Int) ≤ (TransferResult.mk ⟨7, "alice", 6⟩ ⟨8, "bob", 7⟩).sender.point :=
  @transferPoint_conservation transferStore 7 ⟨8, 4⟩
    ⟨⟨7, "alice", 6⟩, ⟨8, "bob", 7⟩⟩ rfl

/-- C10: for every authenticated caller whose role is not `ADMIN`,
`getOrders` returns only orders whose `userId` is the caller's id and counts
exactly the caller's orders passing the price filter, for all values of the
pagination, sorting and price parameters; and the price filters only narrow
the matched set, never widen it. -/
theorem getOrders_scoped_to_caller {s : Store} {user : JwtUser}
    (hrole : user.role ≠ Role.ADMIN) :
    ∀ (sortBy : Option String) (minPrice maxPrice : Option Int) (limit page : Nat),
      (∀ o ∈ (getOrders s user sortBy minPrice maxPrice limit page).data,
        o.userId = user.id) ∧
      (getOrders s user sortBy minPrice maxPrice limit page).total
        = (s.orders.filter (fun o => o.userId == user.id &&
            floatFilterMatches minPrice maxPrice (o.totalPrice : Int))).length ∧
      (∀ o, matchesOrderWhere s
          (buildOrderWhere (some user.id) minPrice maxPrice) o = true →
        matchesOrderWhere s (buildOrderWhere (some user.id) none none) o = true) := by
  intro sortBy minPrice maxPrice limit page
  have hwh : (if user.role = Role.ADMIN then buildOrderWhere none minPrice maxPrice
      else buildOrderWhere (some user.id) minPrice maxPrice)
      = buildOrderWhere (some user.id) minPrice maxPrice := if_neg hrole
  have hbw : ∀ mn mx, buildOrderWhere (some user.id) mn mx
      = OrderWhere.clauses (some user.id) mn mx := by
    intro mn mx
    unfold buildOrderWhere
    rw [if_neg]
    intro hc
    exact Option.noConfusion hc.1
  have hdata : (getOrders s user sortBy minPrice maxPrice limit page).data
      = (((s.orders.filter (matchesOrderWhere s
          (buildOrderWhere (some user.id) minPrice maxPrice))).mergeSort
            (orderLe (buildOrderOrderBy sortBy))).drop
          ((page - 1) * limit)).take limit := by
    unfold getOrders
    rw [hwh]
  have htotal : (getOrders s user sortBy minPrice maxPrice limit page).total
      = (s.orders.filter (matchesOrderWhere s
          (buildOrderWhere (some user.id) minPrice maxPrice))).length := by
    unfold getOrders
    rw [hwh]
  refine ⟨?_, ?_, ?_⟩
  · intro o ho
    rw [hdata] at ho
    have h1 := List.mem_of_mem_take ho
    have h2 := List.mem_of_mem_drop h1
    have h3 := List.mem_mergeSort.mp h2
    have h4 := (List.mem_filter.mp h3).2
    rw [hbw] at h4
    have h5 : (o.userId == user.id &&
        floatFilterMatches minPrice maxPrice (o.totalPrice : Int)) = true := h4
    simp only [Bool.and_eq_true, beq_iff_eq] at h5
    exact h5.1
  · rw [htotal, hbw]
    rfl
  · intro o hm
    rw [hbw] at hm ⊢
    have h5 : (o.userId == user.id &&
        floatFilterMatches minPrice maxPrice (o.totalPrice : Int)) = true := hm
    simp only [Bool.and_eq_true] at h5
    show (o.userId == user.id &&
      floatFilterMatches none none (o.totalPrice : Int)) = true
    simp only [Bool.and_eq_true]
    exact ⟨h5.1, rfl⟩

/-- Witness for C10: user 7 (role USER) sees only their own orders 1 and 3
in `ordersStore`, and the count is 2. -/
theorem getOrders_scoped_to_caller_witness :
    (∀ o ∈ (getOrders ordersStore ⟨7, Role.USER⟩ none none none 30 1).data,
      o.userId = (⟨7, Role.USER⟩ : JwtUser).id) ∧
    (getOrders ordersStore ⟨7, Role.USER⟩ none none none 30 1).total
      = (ordersStore.orders.filter (fun o =>
          o.userId == (⟨7, Role.USER⟩ : JwtUser).id &&
          floatFilterMatches none none (o.totalPrice : Int))).length ∧
    (∀ o, matchesOrderWhere ordersStore
        (buildOrderWhere (some (⟨7, Role.USER⟩ : JwtUser).id) none none) o = true →
      matchesOrderWhere ordersStore
        (buildOrderWhere (some (⟨7, Role.USER⟩ : JwtUser).id) none none) o = true) :=
  getOrders_scoped_to_caller (by decide) none none none 30 1
